import Mathlib

/-!
Verification of the seispy batch-processing pipeline.

This file gives a shallow embedding, in Lean, of the orchestration layer of
the seispy repository (the `rose` helper package and the pipeline stages in
`src/seispy`), and proves the spec-level properties about batching, path
discovery, path derivation, partial-failure handling and source-removal
discipline directly against that embedding.

External waveform operations (obspy read/merge/resample/deconvolution) are
out of scope of the spec and are abstracted: each modelled work unit carries
the *outcome* of the external call (the traces it yields, or the exception
message it raises), and the embedding reproduces exactly the control flow the
Python code wraps around those calls.
-/

/-! ### `rose.generator` — Python `range` and slice semantics

`batch_generator` is literally
`for i in range(0, len(items), batch_size): yield items[i : i + batch_size]`.
We embed Python's `range(start, stop, step)` for a nonzero integer step and
Python's nonnegative slicing, including the `ValueError` that `range` raises
when `step == 0` (surfacing when the generator is first iterated). -/

/-- Python `range(start, stop, step)` for the positive step `s1 + 1`:
the values `start, start + (s1+1), ...` strictly below `stop`. -/
def pyRangeUp (start stop : Int) (s1 : Nat) : List Int :=
  if start < stop then start :: pyRangeUp (start + (s1 + 1)) stop s1 else []
termination_by (stop - start).toNat
decreasing_by omega

/-- Python `range(start, stop, step)` for the negative step `-(s1 + 1)`:
the values `start, start - (s1+1), ...` strictly above `stop`. -/
def pyRangeDown (start stop : Int) (s1 : Nat) : List Int :=
  if stop < start then start :: pyRangeDown (start - (s1 + 1)) stop s1 else []
termination_by (start - stop).toNat
decreasing_by omega

/-- Python `range(start, stop, step)` for a nonzero `step`
(the caller raises `ValueError` on a zero step before reaching this). -/
def pyRange (start stop step : Int) : List Int :=
  if 0 < step then pyRangeUp start stop (step.toNat - 1)
  else if step < 0 then pyRangeDown start stop ((-step).toNat - 1)
  else []

/-- Python slice `items[i : j]` for a nonnegative lower index `i`
(the only way `batch_generator` slices). -/
def pySlice (items : List α) (i j : Int) : List α :=
  (items.drop i.toNat).take (j - i).toNat

/-- `rose.generator.batch_generator(items, batch_size)`:
`for i in range(0, len(items), batch_size): yield items[i : i + batch_size]`.
A zero `batch_size` makes `range` raise `ValueError` when the generator is
first iterated; that is modelled by the `Except.error` branch. -/
def batch_generator (items : List α) (batch_size : Int) : Except String (List (List α)) :=
  if batch_size = 0 then Except.error "ValueError: range() arg 3 must not be zero"
  else Except.ok
    ((pyRange 0 items.length batch_size).map (fun i => pySlice items i (i + batch_size)))

/-- Proof-side restatement of batching: split a list into chunks of size
`s1 + 1`. Used to characterise `batch_generator` for positive sizes. -/
def chunks (s1 : Nat) : List α → List (List α)
  | [] => []
  | x :: xs => ((x :: xs).take (s1 + 1)) :: chunks s1 (xs.drop s1)
termination_by l => l.length
decreasing_by simp; omega

theorem chunks_nil (s1 : Nat) : chunks s1 ([] : List α) = [] := by
  simp [chunks]

theorem chunks_cons (s1 : Nat) (x : α) (xs : List α) :
    chunks s1 (x :: xs) = ((x :: xs).take (s1 + 1)) :: chunks s1 (xs.drop s1) := by
  simp [chunks]

theorem chunks_eq_nil_iff (s1 : Nat) (l : List α) : chunks s1 l = [] ↔ l = [] := by
  cases l with
  | nil => simp [chunks_nil]
  | cons x xs => simp [chunks_cons]

/-- Unfolding of `chunks` on a nonempty list, phrased with `drop` on the
whole list. -/
theorem chunks_cons_drop (s1 : Nat) (l : List α) (h : l ≠ []) :
    chunks s1 l = l.take (s1 + 1) :: chunks s1 (l.drop (s1 + 1)) := by
  cases l with
  | nil => exact absurd rfl h
  | cons x xs => rw [chunks_cons, List.drop_succ_cons]

/-- Concatenating the chunks gives back the original list. -/
theorem chunks_flatten (s1 : Nat) (l : List α) : (chunks s1 l).flatten = l := by
  cases l with
  | nil => simp [chunks_nil]
  | cons x xs =>
      rw [chunks_cons, List.flatten_cons, chunks_flatten s1 (xs.drop s1),
        ← List.drop_succ_cons (n := s1), List.take_append_drop]
termination_by l.length
decreasing_by simp; omega

/-- Every chunk except possibly the last has length exactly `s1 + 1`. -/
theorem chunks_dropLast_length (s1 : Nat) (l : List α) :
    ∀ b ∈ (chunks s1 l).dropLast, b.length = s1 + 1 := by
  cases l with
  | nil => simp [chunks_nil]
  | cons x xs =>
      rw [chunks_cons]
      cases hrest : chunks s1 (xs.drop s1) with
      | nil => simp
      | cons r rs =>
          intro b hb
          rw [List.dropLast_cons_of_ne_nil (by simp)] at hb
          rcases List.mem_cons.mp hb with h | h
          · subst h
            have hne : xs.drop s1 ≠ [] := by
              intro hnil
              rw [hnil, chunks_nil] at hrest
              exact List.noConfusion hrest
            have hlen : s1 < xs.length := by
              by_contra hle
              exact hne (List.drop_eq_nil_of_le (by omega))
            simp [List.length_take]
            omega
          · have := chunks_dropLast_length s1 (xs.drop s1)
            rw [hrest] at this
            exact this b h
termination_by l.length
decreasing_by simp; omega

/-- The last chunk has length `l.length % (s1+1)`, unless `s1 + 1` divides
`l.length` evenly, in which case it has full length `s1 + 1`. -/
theorem chunks_getLast_length (s1 : Nat) (l : List α) (h : l ≠ []) :
    ∃ b, (chunks s1 l).getLast? = some b ∧
      b.length = (if l.length % (s1 + 1) = 0 then s1 + 1 else l.length % (s1 + 1)) := by
  rw [chunks_cons_drop s1 l h]
  cases hrest : chunks s1 (l.drop (s1 + 1)) with
  | nil =>
      have hdrop : l.drop (s1 + 1) = [] := (chunks_eq_nil_iff s1 _).mp hrest
      have hlen : l.length ≤ s1 + 1 := by
        by_contra hgt
        have : (l.drop (s1 + 1)).length = l.length - (s1 + 1) := List.length_drop ..
        rw [hdrop] at this
        simp at this
        omega
      have hpos : 0 < l.length := List.length_pos.mpr h
      refine ⟨l.take (s1 + 1), rfl, ?_⟩
      rw [List.length_take]
      rcases Nat.lt_or_ge l.length (s1 + 1) with hlt | hge
      · rw [if_neg, Nat.min_eq_right (by omega), Nat.mod_eq_of_lt hlt]
        rw [Nat.mod_eq_of_lt hlt]
        omega
      · have heq : l.length = s1 + 1 := by omega
        rw [heq]
        simp
  | cons r rs =>
      have hdrop : l.drop (s1 + 1) ≠ [] := by
        intro hnil
        rw [hnil, chunks_nil] at hrest
        exact List.noConfusion hrest
      obtain ⟨b, hb, hblen⟩ := chunks_getLast_length s1 (l.drop (s1 + 1)) hdrop
      refine ⟨b, ?_, ?_⟩
      · rw [hrest] at hb
        rw [List.getLast?_cons_cons]
        exact hb
      · have hgt : s1 + 1 ≤ l.length := by
          by_contra hlt
          exact hdrop (List.drop_eq_nil_of_le (by omega))
        have hlen : (l.drop (s1 + 1)).length = l.length - (s1 + 1) := List.length_drop ..
        have hsplit : l.length = (l.length - (s1 + 1)) + (s1 + 1) := by omega
        have hmod : (l.length - (s1 + 1)) % (s1 + 1) = l.length % (s1 + 1) := by
          conv_rhs => rw [hsplit]
          rw [Nat.add_mod_right]
        rw [hblen, hlen, hmod]
termination_by l.length
decreasing_by
  have hpos : 0 < l.length := List.length_pos.mpr h
  simp
  omega

/-- The slices that `batch_generator` takes at the indices
`d, d + (s1+1), ...` are exactly the chunks of `items.drop d`. -/
theorem pyRangeUp_map_slice (items : List α) (s1 : Nat) (d : Nat) :
    (pyRangeUp d items.length s1).map
        (fun i => pySlice items i (i + ((s1 : Int) + 1)))
      = chunks s1 (items.drop d) := by
  rw [pyRangeUp]
  by_cases h : (d : Int) < (items.length : Int)
  · have hdlt : d < items.length := by exact_mod_cast h
    rw [if_pos h, List.map_cons]
    have hdrop : items.drop d ≠ [] := by
      intro hnil
      have := List.length_drop d items
      rw [hnil] at this
      simp at this
      omega
    rw [chunks_cons_drop s1 (items.drop d) hdrop]
    have hcast : (d : Int) + ((s1 : Int) + 1) = ((d + (s1 + 1) : Nat) : Int) := by
      push_cast
      ring
    have hhead : pySlice items (d : Int) ((d : Int) + ((s1 : Int) + 1))
        = (items.drop d).take (s1 + 1) := by
      unfold pySlice
      congr 1
      simp
    have hrec := pyRangeUp_map_slice items s1 (d + (s1 + 1))
    rw [hhead, hcast, hrec, List.drop_drop]
  · have hdge : items.length ≤ d := by
      by_contra hlt
      exact h (by exact_mod_cast Nat.lt_of_not_le (fun hle => hlt (by omega)))
    rw [if_neg h, List.map_nil, List.drop_eq_nil_of_le hdge, chunks_nil]
termination_by items.length - d
decreasing_by
  have : d < items.length := by exact_mod_cast h
  omega

/-- For a positive batch size `bs`, `batch_generator` succeeds and produces
exactly the `bs`-sized chunks of the input. -/
theorem batch_generator_eq_chunks (items : List α) (bs : Int) (h : 0 < bs) :
    batch_generator items bs = Except.ok (chunks (bs.toNat - 1) items) := by
  unfold batch_generator
  rw [if_neg (by omega)]
  unfold pyRange
  rw [if_pos h]
  have hcast : ((bs.toNat - 1 : Nat) : Int) + 1 = bs := by omega
  have := pyRangeUp_map_slice items (bs.toNat - 1) 0
  rw [List.drop_zero] at this
  rw [show ((0 : Nat) : Int) = (0 : Int) by norm_num] at this
  have hfun : (fun i : Int => pySlice items i (i + bs))
      = (fun i : Int => pySlice items i (i + (((bs.toNat - 1 : Nat) : Int) + 1))) := by
    funext i
    rw [hcast]
  rw [hfun, this]

/-- C2: for every list of units and positive batch size, `batch_generator`
succeeds, concatenating its batches in order reproduces the original list
exactly, every batch except possibly the last has length `size`, and the last
batch has length `len(units) % size` unless `size` divides `len(units)`
evenly, in which case it too has length `size`. -/
theorem C2_batch_generator_partition {α : Type} (items : List α) (bs : Int) (h : 0 < bs) :
    ∃ bl, batch_generator items bs = Except.ok bl ∧
      bl.flatten = items ∧
      (∀ b ∈ bl.dropLast, b.length = bs.toNat) ∧
      (∀ b, bl.getLast? = some b →
        b.length = if items.length % bs.toNat = 0 then bs.toNat
          else items.length % bs.toNat) := by
  have hsz : bs.toNat - 1 + 1 = bs.toNat := by omega
  refine ⟨chunks (bs.toNat - 1) items, batch_generator_eq_chunks items bs h, ?_, ?_, ?_⟩
  · exact chunks_flatten _ _
  · intro b hb
    have := chunks_dropLast_length (bs.toNat - 1) items b hb
    rw [hsz] at this
    exact this
  · intro b hb
    rcases eq_or_ne items ([] : List α) with hnil | hne
    · rw [hnil, chunks_nil] at hb
      exact absurd hb (by simp)
    · obtain ⟨b2, hb2, hlen2⟩ := chunks_getLast_length (bs.toNat - 1) items hne
      rw [hb] at hb2
      rw [hsz] at hlen2
      rw [← Option.some_inj.mp hb2] at hlen2
      exact hlen2

/-- Witness for C2 at a concrete input: five units, batch size 2. -/
theorem C2_batch_generator_partition_witness : (0 : Int) < 2 ∧
    ∃ bl, batch_generator ([10, 20, 30, 40, 50] : List Nat) 2 = Except.ok bl ∧
      bl.flatten = [10, 20, 30, 40, 50] ∧
      (∀ b ∈ bl.dropLast, b.length = (2 : Int).toNat) ∧
      (∀ b, bl.getLast? = some b →
        b.length = if ([10, 20, 30, 40, 50] : List Nat).length % (2 : Int).toNat = 0
          then (2 : Int).toNat
          else ([10, 20, 30, 40, 50] : List Nat).length % (2 : Int).toNat) :=
  ⟨by norm_num, C2_batch_generator_partition [10, 20, 30, 40, 50] 2 (by norm_num)⟩

/-- C9 counterexample: a negative batch size is NOT rejected — iterating
`batch_generator(items, -1)` silently yields no batches at all, because
Python's `range(0, len(items), -1)` is simply empty.  The claim says any
`size <= 0` is rejected as an error. -/
theorem C9_counterexample_negative_size_silent :
    batch_generator ([0] : List Nat) (-1) = Except.ok [] := by
  unfold batch_generator
  rw [if_neg (by norm_num)]
  unfold pyRange
  rw [if_neg (by norm_num), if_pos (by norm_num)]
  rw [pyRangeDown]
  rw [if_neg (by norm_num)]
  simp

/-- C9 (amended): a batch size of exactly zero is rejected as an error when
the generator is iterated (`range` raises `ValueError`); a negative batch
size is not rejected: it silently produces the empty sequence of batches. -/
theorem C9_amended_size_validation {α : Type} :
    (∀ items : List α, batch_generator items 0
        = Except.error "ValueError: range() arg 3 must not be zero") ∧
    (∀ (items : List α) (bs : Int), bs < 0 → batch_generator items bs = Except.ok []) := by
  constructor
  · intro items
    simp [batch_generator]
  · intro items bs hneg
    unfold batch_generator
    rw [if_neg (by omega)]
    unfold pyRange
    rw [if_neg (by omega), if_pos hneg]
    rw [pyRangeDown]
    rw [if_neg (by omega)]
    simp

/-- Witness for the amended C9 at concrete inputs: size 0 errors, size -2 is
silently accepted with no batches. -/
theorem C9_amended_size_validation_witness :
    (batch_generator ([7] : List Nat) 0
        = Except.error "ValueError: range() arg 3 must not be zero") ∧
    ((-2 : Int) < 0 ∧ batch_generator ([7] : List Nat) (-2) = Except.ok []) :=
  ⟨(C9_amended_size_validation).1 [7],
    by norm_num, (C9_amended_size_validation).2 [7] (-2) (by norm_num)⟩

/-! ### `rose.pather` — leaf-directory discovery and glob dispatch

A filesystem tree is a finite rose tree.  The `file` constructor stands for
any path that is not an existing directory (a regular file, or a missing
path): for both, Python's `path.is_dir()` is false.  Paths are modelled as
their list of segments. -/

inductive FsEntry where
  | file (name : String)
  | dir (name : String) (children : List FsEntry)

/-- `child.is_dir()`. -/
def FsEntry.isDir : FsEntry → Bool
  | .file _ => false
  | .dir _ _ => true

/-- `rose.pather.find_last_subdirs(path)`:
returns `[]` when `path` is not a directory; returns `[path]` when it is a
directory with no subdirectories; otherwise recursively collects, in order,
the results for each subdirectory. -/
def find_last_subdirs : List String → FsEntry → List (List String)
  | _, .file _ => []
  | path, .dir name children =>
      let subdirs := children.filter FsEntry.isDir
      if subdirs.isEmpty then [path ++ [name]]
      else subdirs.attach.flatMap (fun c => find_last_subdirs (path ++ [name]) c.1)
termination_by _ e => sizeOf e
decreasing_by
  have h1 : c.1 ∈ children := List.mem_of_mem_filter c.2
  have h2 := List.sizeOf_lt_of_mem h1
  simp
  omega

/-- Spec-side definition, from the spec's words: every directory under the
root (including the root itself when it is a directory), each paired with
its list of children, in depth-first preorder. -/
def dirsUnder : List String → FsEntry → List (List String × List FsEntry)
  | _, .file _ => []
  | path, .dir name children =>
      (path ++ [name], children)
        :: children.attach.flatMap (fun c => dirsUnder (path ++ [name]) c.1)
termination_by _ e => sizeOf e
decreasing_by
  have h2 := List.sizeOf_lt_of_mem c.2
  simp
  omega

theorem find_last_subdirs_file (p : List String) (n : String) :
    find_last_subdirs p (.file n) = [] := by
  simp [find_last_subdirs]

theorem find_last_subdirs_dir (p : List String) (n : String) (children : List FsEntry) :
    find_last_subdirs p (.dir n children)
      = (if (children.filter FsEntry.isDir).isEmpty then [p ++ [n]]
        else (children.filter FsEntry.isDir).flatMap (find_last_subdirs (p ++ [n]))) := by
  rw [find_last_subdirs]
  simp [List.flatMap]

theorem dirsUnder_file (p : List String) (n : String) :
    dirsUnder p (.file n) = [] := by
  simp [dirsUnder]

theorem dirsUnder_dir (p : List String) (n : String) (children : List FsEntry) :
    dirsUnder p (.dir n children)
      = (p ++ [n], children) :: children.flatMap (dirsUnder (p ++ [n])) := by
  rw [dirsUnder]
  simp [List.flatMap]

theorem flatMap_congr_mem {l : List β} {f g : β → List γ}
    (h : ∀ a ∈ l, f a = g a) : l.flatMap f = l.flatMap g := by
  induction l with
  | nil => rfl
  | cons x xs ih =>
      rw [List.flatMap_cons, List.flatMap_cons, h x (List.mem_cons_self x xs),
        ih (fun a ha => h a (List.mem_cons_of_mem x ha))]

theorem filter_map_flatMap (l : List β) (f : β → List γ) (P : γ → Bool) (g : γ → δ) :
    ((l.flatMap f).filter P).map g = l.flatMap (fun a => (((f a).filter P).map g)) := by
  induction l with
  | nil => simp
  | cons x xs ih => simp [List.flatMap_cons, List.filter_append, List.map_append, ih]

/-- Children that are not directories contribute nothing to a flatMap whose
function vanishes on non-directories. -/
theorem flatMap_filter_isDir (children : List FsEntry) (g : FsEntry → List γ)
    (h : ∀ c ∈ children, c.isDir = false → g c = []) :
    (children.filter FsEntry.isDir).flatMap g = children.flatMap g := by
  induction children with
  | nil => rfl
  | cons c cs ih =>
      have ih2 := ih (fun a ha hnd => h a (List.mem_cons_of_mem c ha) hnd)
      cases hc : c.isDir with
      | true => rw [List.filter_cons_of_pos hc, List.flatMap_cons, List.flatMap_cons, ih2]
      | false =>
          rw [List.filter_cons_of_neg (by simp [hc]), List.flatMap_cons, ih2,
            h c (List.mem_cons_self c cs) hc, List.nil_append]

/-- C8: leaf-directory discovery returns exactly the directories under the
root that have no subdirectories: the root itself when it is childless of
directories, never a directory that has a child directory, and the empty
list when the root is not an existing directory; it is a total function of
the finite tree (termination). -/
theorem C8_find_last_subdirs_leaves (p : List String) (e : FsEntry) :
    find_last_subdirs p e
      = ((dirsUnder p e).filter
            (fun x => (x.2.filter FsEntry.isDir).isEmpty)).map Prod.fst := by
  cases e with
  | file n => rw [find_last_subdirs_file, dirsUnder_file]; rfl
  | dir name children =>
      have hIH : ∀ c ∈ children, find_last_subdirs (p ++ [name]) c
          = ((dirsUnder (p ++ [name]) c).filter
              (fun x => (x.2.filter FsEntry.isDir).isEmpty)).map Prod.fst :=
        fun c _ => C8_find_last_subdirs_leaves (p ++ [name]) c
      rw [find_last_subdirs_dir, dirsUnder_dir]
      by_cases hleaf : (children.filter FsEntry.isDir).isEmpty
      · rw [if_pos hleaf, List.filter_cons_of_pos (by simpa using hleaf)]
        have hnone : ∀ c ∈ children, dirsUnder (p ++ [name]) c = [] := by
          intro c hc
          cases c with
          | file m => exact dirsUnder_file _ m
          | dir m cs =>
              exfalso
              have : FsEntry.dir m cs ∈ children.filter FsEntry.isDir :=
                List.mem_filter.mpr ⟨hc, rfl⟩
              rw [List.isEmpty_iff.mp hleaf] at this
              exact List.not_mem_nil _ this
        rw [flatMap_congr_mem hnone]
        simp
      · rw [if_neg hleaf, List.filter_cons_of_neg (by simpa using hleaf)]
        rw [filter_map_flatMap]
        rw [flatMap_congr_mem (fun c hc => hIH c (List.mem_of_mem_filter hc))]
        refine flatMap_filter_isDir children _ ?_
        intro c hc hnd
        cases c with
        | file m => rw [dirsUnder_file]; rfl
        | dir m cs => simp [FsEntry.isDir] at hnd
termination_by sizeOf e
decreasing_by
  rename_i hmem
  have h2 := List.sizeOf_lt_of_mem hmem
  simp
  omega

/-- `rose.pather.glob(dir, method, patterns, exclude_parts, include_parts)`.
The directory is abstracted by its two search capabilities: `dirGlob p` and
`dirRglob p` give the paths (as segment lists) that `dir.glob(p)` and
`dir.rglob(p)` would return.  An unrecognized `method` string matches
neither branch, so `targets` stays empty.  Passing `None` for a filter list
behaves like passing `[]` (both are falsy in Python), so the filters are
plain lists here. -/
def glob (dirGlob dirRglob : String → List (List String)) (method : String)
    (patterns exclude_parts include_parts : List String) : List (List String) :=
  let targets :=
    if method = "glob" then patterns.flatMap dirGlob
    else if method = "rglob" then patterns.flatMap dirRglob
    else []
  let t1 := exclude_parts.foldl
    (fun acc part => acc.filter (fun t => decide (part ∉ t))) targets
  include_parts.foldl (fun acc part => acc.filter (fun t => decide (part ∈ t))) t1

/-- Folding filters over an empty list of targets leaves it empty. -/
theorem foldl_filter_nil (ps : List β) (q : β → γ → Bool) :
    ps.foldl (fun (acc : List γ) p => acc.filter (q p)) [] = [] := by
  induction ps with
  | nil => rfl
  | cons x xs ih => rw [List.foldl_cons, List.filter_nil, ih]

/-- C10: calling `pather.glob` with a method string other than `"glob"` or
`"rglob"` silently returns the empty list — no exception, no search — so a
misspelled method is indistinguishable from a directory with no matching
files. -/
theorem C10_glob_unknown_method (dirGlob dirRglob : String → List (List String))
    (method : String) (patterns exclude_parts include_parts : List String)
    (h1 : method ≠ "glob") (h2 : method ≠ "rglob") :
    glob dirGlob dirRglob method patterns exclude_parts include_parts = [] := by
  unfold glob
  rw [if_neg h1, if_neg h2]
  simp only [foldl_filter_nil]

/-- Witness for C10: the misspelled method `"rglb"` on a directory that does
have matching files still returns nothing. -/
theorem C10_glob_unknown_method_witness :
    ("rglb" : String) ≠ "glob" ∧ ("rglb" : String) ≠ "rglob" ∧
      glob (fun _ => [["data", "a.sac"]]) (fun _ => [["data", "b.sac"]])
        "rglb" ["*.sac"] [] [] = [] :=
  ⟨by decide, by decide,
    C10_glob_unknown_method _ _ "rglb" ["*.sac"] [] [] (by decide) (by decide)⟩

/-! ### `seispy.collate.merge` — merging per-day SAC fragments

`_merge_targets(day, pattern, remove_src)` reads every matching file of one
leaf (day) directory into a stream, sorts and merges the stream (external
obspy operations, abstracted by the `sortMerge` parameter), writes one
`...merged.sac` file per merged trace, and only then — only if nothing in
the `try` block raised — unlinks the source files when `remove_src` is set.
When the directory has no matching files, the line
`sac_parts = sac.stem.split(".")` references the loop variable `sac` of the
completed-but-empty read loop, raising `UnboundLocalError`, which the
`except Exception` clause catches like any other failure. -/

/-- One obspy trace, abstracted: its channel code and whether `tr.write`
raises for it (and with which message). -/
structure Trace where
  channel : String
  writeErr : Option String

/-- One SAC file of a day directory: its name, its stem split at the dots,
and the outcome of `obspy.read` on it (the traces it contributes, or the
raised exception's message). -/
structure SacFile where
  name : String
  stemParts : List String
  readRes : Except String (List Trace)

/-- One leaf (day) directory: its path string and the files matching the
glob pattern, in glob order. -/
structure DayDir where
  name : String
  sacs : List SacFile

/-- The filesystem effects of `_merge_targets` on one day directory. -/
structure MergeEffect where
  err : Option String
  written : List String
  deleted : List String

/-- The read loop `for sac in sacs: st += obspy.read(sac)`: the first file
whose read raises aborts the loop with that exception. -/
def readAll : List SacFile → Except String (List Trace)
  | [] => Except.ok []
  | f :: fs =>
      match f.readRes with
      | Except.error e => Except.error e
      | Except.ok ts =>
          match readAll fs with
          | Except.error e => Except.error e
          | Except.ok rest => Except.ok (ts ++ rest)

/-- The write loop `for tr in st: target_parts[3] = tr.stats.channel; ...`.
Returns the destination paths written before any failure, and the message of
the first raised exception, if any.  Python's list assignment
`target_parts[3] = ...` raises `IndexError` when the list is too short. -/
def writeTraces (dayName : String) (target_parts : List String) :
    List Trace → List String × Option String
  | [] => ([], none)
  | tr :: trs =>
      if target_parts.length ≤ 3 then
        ([], some "IndexError: list assignment index out of range")
      else
        let parts := target_parts.set 3 tr.channel
        let target := dayName ++ "/" ++ String.intercalate "." parts
        match tr.writeErr with
        | some e => ([], some e)
        | none =>
            let rest := writeTraces dayName parts trs
            (target :: rest.1, rest.2)

/-- `seispy.collate.merge._merge_targets(day, pattern, remove_src)`.
`sortMerge` abstracts the external `st.sort(); st.merge(...)` pair.
`day.sacs` is the result of `day.glob(pattern)`.  Note that the
source-unlink loop runs after the `try` block, so it runs exactly when
nothing raised. -/
def _merge_targets (sortMerge : List Trace → List Trace) (day : DayDir)
    (remove_src : Bool) : MergeEffect :=
  let sacs := day.sacs
  match readAll sacs with
  | Except.error e =>
      ⟨some ("Errors in " ++ day.name ++ ":\n  " ++ e), [], []⟩
  | Except.ok traces =>
      let st := sortMerge traces
      match sacs.getLast? with
      | none =>
          ⟨some ("Errors in " ++ day.name
            ++ ":\n  UnboundLocalError: cannot access local variable sac "
            ++ "where it is not associated with a value"), [], []⟩
      | some lastSac =>
          let target_parts := lastSac.stemParts.dropLast ++ ["merged", "sac"]
          match writeTraces day.name target_parts st with
          | (written, some e) =>
              ⟨some ("Errors in " ++ day.name ++ ":\n  " ++ e), written, []⟩
          | (written, none) =>
              ⟨none, written, if remove_src then sacs.map SacFile.name else []⟩

/-- `seispy.collate.merge.merge_by_day`: dispatches `_merge_targets` over
the day directories, collects the non-`None` results (the diagnostics) as
they complete, and returns them as the error artifact's lines.  Completion
order is nondeterministic in the process pool; it is modelled here as
submission order. -/
def merge_by_day (sortMerge : List Trace → List Trace) (days : List DayDir)
    (remove_src : Bool) : List String :=
  (days.map (fun day => _merge_targets sortMerge day remove_src)).filterMap
    MergeEffect.err

/-- C4 (the merge-scenario claim, evaluated on the code): running the merge
stage over three leaf directories holding {3, 0, 1} matching files, with the
single file of the last directory malformed, does NOT yield
`{success: 2, failed: 1}` with one diagnostic line: the empty directory is
itself recorded as a failure (the code hits `UnboundLocalError` on the loop
variable `sac`), so the artifact has exactly two diagnostic lines — one
naming the empty directory, one naming the malformed one — and only the
first directory succeeds.  There is no `no_data`/`skipped` outcome anywhere
in the merge stage. -/
theorem C4_merge_scenario_eval :
    merge_by_day id
      [⟨"data/NZ/S1/2024/001",
        [⟨"NZ.S1.10.BHZ.D.2024.001.SAC",
          ["NZ", "S1", "10", "BHZ", "D", "2024", "001"],
          Except.ok [⟨"BHZ", none⟩]⟩,
         ⟨"NZ.S1.10.BHN.D.2024.001.SAC",
          ["NZ", "S1", "10", "BHN", "D", "2024", "001"],
          Except.ok [⟨"BHN", none⟩]⟩,
         ⟨"NZ.S1.10.BHE.D.2024.001.SAC",
          ["NZ", "S1", "10", "BHE", "D", "2024", "001"],
          Except.ok [⟨"BHE", none⟩]⟩]⟩,
       ⟨"data/NZ/S2/2024/001", []⟩,
       ⟨"data/NZ/S3/2024/001",
        [⟨"NZ.S3.10.BHZ.D.2024.001.SAC",
          ["NZ", "S3", "10", "BHZ", "D", "2024", "001"],
          Except.error "unable to read"⟩]⟩]
      true
    = ["Errors in data/NZ/S2/2024/001:\n  UnboundLocalError: "
        ++ "cannot access local variable sac where it is not associated with a value",
       "Errors in data/NZ/S3/2024/001:\n  unable to read"] := by
  rfl

/-! ### `seispy.response.remove_response.obspy_deconv` and
`seispy.resample.obspy_resample_by_station`

Both walk the files of one station directory; for each file they run the
external read/transform chain, write the transformed output next to the
source, and — only then, still inside the per-file `try` — unlink the
source when `remove_src` is set. -/

/-- Python `Path(name).with_suffix(suffix)`: replaces everything after the
last dot (appends when the name has no dot). -/
def withSuffix (name suffix : String) : String :=
  let ps := name.splitOn "."
  if ps.length ≤ 1 then name ++ suffix
  else String.intercalate "." ps.dropLast ++ suffix

/-- `Path(name).parent` for a slash-separated path string. -/
def parentDir (name : String) : String :=
  String.intercalate "/" ((name.splitOn "/").dropLast)

/-- One file processed by `obspy_deconv`: the outcome of
`stream_removed_response` (read + detrend + taper + remove_response,
abstracted), and the outcome of `st.write`. -/
structure DeconvTarget where
  name : String
  procRes : Except String Unit
  writeErr : Option String

/-- Effects of one station-directory worker (deconvolution). -/
structure DeconvEffect where
  ok : Bool
  written : List String
  deleted : List String
  logs : List String

/-- `obspy_deconv(dir, pattern, inv, resample, remove_src)`: per file, on
any exception the error is logged and the flag flips to `failed`; the
unlink runs inside the `try`, after a successful write. -/
def obspy_deconv : List DeconvTarget → Bool → DeconvEffect
  | [], _ => ⟨true, [], [], []⟩
  | t :: ts, remove_src =>
      let rest := obspy_deconv ts remove_src
      match t.procRes with
      | Except.error e =>
          ⟨false, rest.written, rest.deleted,
            ("Error occered at " ++ t.name ++ " : " ++ e) :: rest.logs⟩
      | Except.ok _ =>
          let dest := withSuffix t.name ".deconv.sac"
          match t.writeErr with
          | some e =>
              ⟨false, rest.written, rest.deleted,
                ("Error occered at " ++ t.name ++ " : " ++ e) :: rest.logs⟩
          | none =>
              ⟨rest.ok, dest :: rest.written,
                (if remove_src then t.name :: rest.deleted else rest.deleted),
                rest.logs⟩

/-- One file processed by `obspy_resample_by_station`: the outcome of
`obspy.read` + `st.resample(delta)` (abstracted), and of `st.write`. -/
structure ResampleTarget where
  name : String
  procRes : Except String Unit
  writeErr : Option String

/-- Effects of one station-directory worker (resampling): the
`(total, failed)` counts it returns, plus its filesystem effects. -/
structure ResampleEffect where
  total : Nat
  failed : Nat
  written : List String
  deleted : List String
  logs : List String

/-- `obspy_resample_by_station(dir, pattern, delta, remove_src)`.
`deltaStr` is the string form of the `delta` float in the destination
suffix `.{delta}Hz.sac`. -/
def obspy_resample_by_station (deltaStr : String) :
    List ResampleTarget → Bool → ResampleEffect
  | [], _ => ⟨0, 0, [], [], []⟩
  | t :: ts, remove_src =>
      let rest := obspy_resample_by_station deltaStr ts remove_src
      match t.procRes with
      | Except.error e =>
          ⟨rest.total + 1, rest.failed + 1, rest.written, rest.deleted,
            ("Error occered at " ++ parentDir t.name ++ " : " ++ e) :: rest.logs⟩
      | Except.ok _ =>
          let dest := withSuffix t.name ("." ++ deltaStr ++ "Hz.sac")
          match t.writeErr with
          | some e =>
              ⟨rest.total + 1, rest.failed + 1, rest.written, rest.deleted,
                ("Error occered at " ++ parentDir t.name ++ " : " ++ e) :: rest.logs⟩
          | none =>
              ⟨rest.total + 1, rest.failed, dest :: rest.written,
                (if remove_src then t.name :: rest.deleted else rest.deleted),
                rest.logs⟩

/-- C6: in every stage with a `remove_src` flag (merge, deconvolve,
resample), a unit's source files are deleted exactly when the flag is set
AND the whole read-transform-write chain for that unit succeeded; if
reading, transforming or writing raises, the unit's sources are left
untouched, and with the flag disabled nothing is ever deleted. -/
theorem C6_remove_source_discipline :
    (∀ (sortMerge : List Trace → List Trace) (day : DayDir) (rs : Bool),
      (_merge_targets sortMerge day rs).deleted
        = if ((_merge_targets sortMerge day rs).err.isNone && rs)
            then day.sacs.map SacFile.name else []) ∧
    (∀ (ts : List DeconvTarget) (rs : Bool),
      (obspy_deconv ts rs).deleted
        = if rs
            then (ts.filter
              (fun t => t.procRes.toOption.isSome && t.writeErr.isNone)).map
                DeconvTarget.name
            else []) ∧
    (∀ (deltaStr : String) (ts : List ResampleTarget) (rs : Bool),
      (obspy_resample_by_station deltaStr ts rs).deleted
        = if rs
            then (ts.filter
              (fun t => t.procRes.toOption.isSome && t.writeErr.isNone)).map
                ResampleTarget.name
            else []) := by
  refine ⟨?_, ?_, ?_⟩
  · intro sortMerge day rs
    unfold _merge_targets
    cases hr : readAll day.sacs with
    | error e => simp [hr]
    | ok traces =>
        cases hl : day.sacs.getLast? with
        | none => simp [hr, hl]
        | some lastSac =>
            cases hw : writeTraces day.name
                (lastSac.stemParts.dropLast ++ ["merged", "sac"])
                (sortMerge traces) with
            | mk written werr =>
                cases werr with
                | some e => simp [hr, hl, hw]
                | none =>
                    cases rs with
                    | true => simp [hr, hl, hw]
                    | false => simp [hr, hl, hw]
  · intro ts rs
    induction ts with
    | nil => cases rs <;> simp [obspy_deconv]
    | cons t ts ih =>
        cases hp : t.procRes with
        | error e =>
            simp only [obspy_deconv, hp]
            rw [ih]
            cases rs with
            | true => simp [List.filter_cons, hp, Except.toOption]
            | false => simp
        | ok u =>
            cases hw : t.writeErr with
            | some e =>
                simp only [obspy_deconv, hp, hw]
                rw [ih]
                cases rs with
                | true => simp [List.filter_cons, hp, hw, Except.toOption]
                | false => simp
            | none =>
                simp only [obspy_deconv, hp, hw]
                cases rs with
                | true => simp_all [List.filter_cons, hp, hw, Except.toOption]
                | false => simp_all
  · intro deltaStr ts rs
    induction ts with
    | nil => cases rs <;> simp [obspy_resample_by_station]
    | cons t ts ih =>
        cases hp : t.procRes with
        | error e =>
            simp only [obspy_resample_by_station, hp]
            rw [ih]
            cases rs with
            | true => simp [List.filter_cons, hp, Except.toOption]
            | false => simp
        | ok u =>
            cases hw : t.writeErr with
            | some e =>
                simp only [obspy_resample_by_station, hp, hw]
                rw [ih]
                cases rs with
                | true => simp [List.filter_cons, hp, hw, Except.toOption]
                | false => simp
            | none =>
                simp only [obspy_resample_by_station, hp, hw]
                cases rs with
                | true => simp_all [List.filter_cons, hp, hw, Except.toOption]
                | false => simp_all

/-! ### `seispy.collate.mseed2sac` — per-batch conversion with local
failure isolation (`process_batch` / `_mseeds_to_sac`), and destination
path derivation (`build_destination_path` / `_mseed2sac`). -/

/-- One miniSEED file given to a conversion batch: its name and the outcome
of the whole `mseed2sac`/`_mseed2sac` read-merge-write chain on it
(abstracted — the claim is about the batch loop around it). -/
structure MseedFile where
  name : String
  conv : Except String Unit

/-- `process_batch(file_paths, dest_dir, logger)`: counts successes,
catches each file's exception locally, logging `Failed {name}: {msg}`, and
always continues with the next file.  Returns the success count and the
logged error lines. -/
def process_batch : List MseedFile → Nat × List String
  | [] => (0, [])
  | f :: fs =>
      let rest := process_batch fs
      match f.conv with
      | Except.ok _ => (rest.1 + 1, rest.2)
      | Except.error e => (rest.1, ("Failed " ++ f.name ++ ": " ++ e) :: rest.2)

/-- `_mseeds_to_sac(targets, dest_path)`: collects per-file diagnostics
`Errors in {target}:\n  {err}\n` and returns them if any, else `None`. -/
def _mseeds_to_sac (files : List MseedFile) : Option (List String) :=
  let errs := files.filterMap (fun f =>
    match f.conv with
    | Except.ok _ => none
    | Except.error e => some ("Errors in " ++ f.name ++ ":\n  " ++ e ++ "\n"))
  if errs.isEmpty then none else some errs

theorem process_batch_all_ok (l : List MseedFile)
    (h : ∀ f ∈ l, f.conv = Except.ok ()) : process_batch l = (l.length, []) := by
  induction l with
  | nil => rfl
  | cons f fs ih =>
      have hf := h f (List.mem_cons_self f fs)
      have ihh := ih (fun g hg => h g (List.mem_cons_of_mem f hg))
      simp [process_batch, hf, ihh]

theorem process_batch_append (a b : List MseedFile) :
    process_batch (a ++ b)
      = ((process_batch a).1 + (process_batch b).1,
          (process_batch a).2 ++ (process_batch b).2) := by
  induction a with
  | nil => simp [process_batch]
  | cons f fs ih =>
      cases hf : f.conv with
      | ok u => simp [process_batch, hf, ih]; omega
      | error e => simp [process_batch, hf, ih]

theorem filterMap_all_none (l : List β) (g : β → Option γ)
    (h : ∀ f ∈ l, g f = none) : l.filterMap g = [] := by
  induction l with
  | nil => rfl
  | cons f fs ih =>
      rw [List.filterMap_cons, h f (List.mem_cons_self f fs),
        ih (fun x hx => h x (List.mem_cons_of_mem f hx))]

/-- C3: in a batch of `N` units where exactly one unit fails, the failure is
caught locally: the batch reports `N - 1` successes, the failure count rises
by exactly one (a single diagnostic), and the diagnostic names the failing
unit.  Both batch processors (`process_batch`, which counts, and
`_mseeds_to_sac`, which collects diagnostics) isolate the failure. -/
theorem C3_batch_partial_failure_isolation (pre post : List MseedFile)
    (bad : MseedFile) (e : String)
    (hpre : ∀ f ∈ pre, f.conv = Except.ok ())
    (hpost : ∀ f ∈ post, f.conv = Except.ok ())
    (hbad : bad.conv = Except.error e) :
    process_batch (pre ++ bad :: post)
      = (pre.length + post.length, ["Failed " ++ bad.name ++ ": " ++ e]) ∧
    _mseeds_to_sac (pre ++ bad :: post)
      = some ["Errors in " ++ bad.name ++ ":\n  " ++ e ++ "\n"] := by
  constructor
  · rw [process_batch_append, process_batch_all_ok pre hpre]
    have hrest : process_batch (bad :: post)
        = (post.length, ["Failed " ++ bad.name ++ ": " ++ e]) := by
      simp [process_batch, hbad, process_batch_all_ok post hpost]
    rw [hrest]
    simp
  · unfold _mseeds_to_sac
    have hg : ∀ (l : List MseedFile), (∀ f ∈ l, f.conv = Except.ok ()) →
        l.filterMap (fun f =>
          match f.conv with
          | Except.ok _ => none
          | Except.error e2 =>
              some ("Errors in " ++ f.name ++ ":\n  " ++ e2 ++ "\n")) = [] := by
      intro l hl
      refine filterMap_all_none l _ ?_
      intro f hf
      rw [hl f hf]
    rw [List.filterMap_append, hg pre hpre, List.filterMap_cons, hbad, hg post hpost]
    simp

/-- Witness for C3: a three-unit batch whose middle unit is corrupt. -/
theorem C3_batch_partial_failure_isolation_witness :
    (∀ f ∈ [(⟨"a.mseed", Except.ok ()⟩ : MseedFile)], f.conv = Except.ok ()) ∧
    (∀ f ∈ [(⟨"c.mseed", Except.ok ()⟩ : MseedFile)], f.conv = Except.ok ()) ∧
    (⟨"b.mseed", Except.error "corrupt"⟩ : MseedFile).conv = Except.error "corrupt" ∧
    (process_batch ([⟨"a.mseed", Except.ok ()⟩]
        ++ (⟨"b.mseed", Except.error "corrupt"⟩ : MseedFile) :: [⟨"c.mseed", Except.ok ()⟩])
      = (1 + 1, ["Failed " ++ "b.mseed" ++ ": " ++ "corrupt"]) ∧
    _mseeds_to_sac ([⟨"a.mseed", Except.ok ()⟩]
        ++ (⟨"b.mseed", Except.error "corrupt"⟩ : MseedFile) :: [⟨"c.mseed", Except.ok ()⟩])
      = some ["Errors in " ++ "b.mseed" ++ ":\n  " ++ "corrupt" ++ "\n"]) :=
  ⟨by intro f hf; rw [List.mem_singleton] at hf; rw [hf],
    by intro f hf; rw [List.mem_singleton] at hf; rw [hf], rfl,
    C3_batch_partial_failure_isolation [⟨"a.mseed", Except.ok ()⟩]
      [⟨"c.mseed", Except.ok ()⟩] ⟨"b.mseed", Except.error "corrupt"⟩ "corrupt"
      (by intro f hf; rw [List.mem_singleton] at hf; rw [hf])
      (by intro f hf; rw [List.mem_singleton] at hf; rw [hf]) rfl⟩

/-- Python's zero-padding `f"{n:0{w}d}"` applied to a digit string:
prepend `'0'` until the width is `w` (no-op when already long enough). -/
def zfill (w : Nat) (s : String) : String :=
  String.mk (List.replicate (w - s.length) '0') ++ s

/-- `f"{n:04d}"`-style formatting of a nonnegative integer. -/
def pad (w n : Nat) : String :=
  zfill w (Nat.repr n)

/-- `seispy.collate.mseed2sac.build_destination_path`: the daily-file path
`{base}/{net}/{sta}/{year:04d}/{day:03d}/{net}.{sta}.{loc}.{chan}.{q}.{year:04d}.{day:03d}{suffix}`
(the `mkdir` side effect is not part of the derivation).  Argument order
follows the source. -/
def build_destination_path (network station : String) (year julday : Nat)
    (location channel data_quality : String) (dest_base suffix : String) : String :=
  let year_str := pad 4 year
  let day_str := pad 3 julday
  dest_base ++ "/" ++ network ++ "/" ++ station ++ "/" ++ year_str ++ "/" ++ day_str
    ++ "/" ++ network ++ "." ++ station ++ "." ++ location ++ "." ++ channel ++ "."
    ++ data_quality ++ "." ++ year_str ++ "." ++ day_str ++ suffix

/-- The destination path computed by `seispy.collate.mseed2sac._mseed2sac`
for sub-day files: note the source uses `year = str(starttime.year)` — the
plain decimal year, with no zero-padding — in both the directory and the
file name, while the day of year is padded to 3 digits. -/
def _mseed2sac_dest (dest_path network station location channel data_quality : String)
    (year julday : Nat) (hhmmss : String) : String :=
  let year_str := Nat.repr year
  let day_str := pad 3 julday
  dest_path ++ "/" ++ network ++ "/" ++ station ++ "/" ++ year_str ++ "/" ++ day_str
    ++ "/" ++ network ++ "." ++ station ++ "." ++ location ++ "." ++ channel ++ "."
    ++ data_quality ++ "." ++ year_str ++ "." ++ day_str ++ "." ++ hhmmss ++ ".sac"

/-- Spec-side definition, from the spec's words: the claimed layout
`{network}/{station}/{year:04d}/{day_of_year:03d}/{network}.{station}.{location}.{channel}.{quality}.{year:04d}.{day_of_year:03d}[.{HHMMSS}].{ext}`
under a base directory. -/
def specLayoutPath (base network station location channel quality : String)
    (year julday : Nat) (timeOfDay : Option String) (ext : String) : String :=
  base ++ "/" ++ network ++ "/" ++ station ++ "/" ++ zfill 4 (Nat.repr year) ++ "/"
    ++ zfill 3 (Nat.repr julday) ++ "/" ++ network ++ "." ++ station ++ "." ++ location
    ++ "." ++ channel ++ "." ++ quality ++ "." ++ zfill 4 (Nat.repr year) ++ "."
    ++ zfill 3 (Nat.repr julday)
    ++ (match timeOfDay with | none => "" | some t => "." ++ t) ++ "." ++ ext

/-- Padding is a no-op on a string already at least `w` long. -/
theorem zfill_of_le (w : Nat) (s : String) (h : w ≤ s.length) : zfill w s = s := by
  unfold zfill
  rw [Nat.sub_eq_zero_of_le h, List.replicate_zero]
  rfl

/-- C5 counterexample: for a (hypothetical) three-digit year the sub-day
derivation `_mseed2sac` does not produce the spec's `{year:04d}` layout:
the year appears as `999`, not `0999`. -/
theorem C5_counterexample_subday_year_unpadded :
    _mseed2sac_dest "data" "XB" "CD01" "00" "HHZ" "D" 999 5 "120000"
      ≠ specLayoutPath "data" "XB" "CD01" "00" "HHZ" "D" 999 5 (some "120000") "sac" := by
  decide

/-- C5 (amended): both derivations are pure functions of the metadata (so
determinism holds by construction); the daily derivation
`build_destination_path` follows the spec layout exactly, with 4-digit
zero-padded year and 3-digit zero-padded day, for all metadata; the sub-day
derivation `_mseed2sac` pads the day to 3 digits but writes the year as its
plain decimal form, so it matches the spec layout exactly when the decimal
year already has at least 4 digits (every real year 1000-9999), and
deviates otherwise. -/
theorem C5_amended_path_derivation :
    (∀ (network station : String) (year julday : Nat)
        (location channel data_quality base ext : String),
      build_destination_path network station year julday location channel
          data_quality base ("." ++ ext)
        = specLayoutPath base network station location channel data_quality
            year julday none ext) ∧
    (∀ (base network station location channel data_quality : String)
        (year julday : Nat) (hhmmss : String),
      4 ≤ (Nat.repr year).length →
      _mseed2sac_dest base network station location channel data_quality
          year julday hhmmss
        = specLayoutPath base network station location channel data_quality
            year julday (some hhmmss) "sac") := by
  constructor
  · intro network station year julday location channel data_quality base ext
    unfold build_destination_path specLayoutPath pad
    simp [String.append_assoc]
  · intro base network station location channel data_quality year julday hhmmss h
    unfold _mseed2sac_dest specLayoutPath pad
    rw [zfill_of_le 4 (Nat.repr year) h]
    simp [String.append_assoc]

/-- Witness for the amended C5, matching the docstring example
`/data/XB/CD01/2023/123/XB.CD01.00.HHZ.D.2023.123.sac` and a sub-day file
of year 2024. -/
theorem C5_amended_path_derivation_witness :
    (build_destination_path "XB" "CD01" 2023 123 "00" "HHZ" "D" "/data" ("." ++ "sac")
      = specLayoutPath "/data" "XB" "CD01" "00" "HHZ" "D" 2023 123 none "sac") ∧
    (4 ≤ (Nat.repr 2024).length ∧
      _mseed2sac_dest "/data" "XB" "CD01" "00" "HHZ" "D" 2024 1 "120000"
        = specLayoutPath "/data" "XB" "CD01" "00" "HHZ" "D" 2024 1 (some "120000") "sac") :=
  ⟨C5_amended_path_derivation.1 "XB" "CD01" 2023 123 "00" "HHZ" "D" "/data" "sac",
    by decide,
    C5_amended_path_derivation.2 "/data" "XB" "CD01" "00" "HHZ" "D" 2024 1 "120000"
      (by decide)⟩

/-! ### `seispy.collate.sort.sort_to` and `seispy.download.IRISDownloader.wave`
— how each run drains its worker futures.

`sort_to` calls `future.result()` bare: the first completed future whose
batch raised re-raises in the coordinator and the run dies.  `wave` wraps
`future.result()` in `try/except`, logging `Mission failed: {msg}` and
continuing.  Completion order is nondeterministic; it is modelled as
submission order (for `sort_to` the modelled error is the first failing
batch in submission order — any failing batch kills the run either way). -/

/-- One file found by the sort stage's rglob: its name and its stem split at
the dots (`_copy_targets` unpacks exactly 8 fields from it). -/
structure SortTarget where
  name : String
  stemParts : List String

/-- `seispy.collate.sort._copy_targets(targets, dest_path)`: per file,
`net, sta, _, _, _, year, day, _ = target.stem.split(".")` (raising
`ValueError` unless there are exactly 8 parts), then copy to
`dest/net/sta/year/day/name`.  Returns the copied destinations. -/
def _copy_targets (dest : String) : List SortTarget → Except String (List String)
  | [] => Except.ok []
  | t :: ts =>
      if t.stemParts.length = 8 then
        let p := t.stemParts
        let destFile := dest ++ "/" ++ p[0]! ++ "/" ++ p[1]! ++ "/" ++ p[5]!
          ++ "/" ++ p[6]! ++ "/" ++ t.name
        match _copy_targets dest ts with
        | Except.error e => Except.error e
        | Except.ok rest => Except.ok (destFile :: rest)
      else if t.stemParts.length < 8 then
        Except.error "ValueError: not enough values to unpack (expected 8)"
      else
        Except.error "ValueError: too many values to unpack (expected 8)"

/-- The `for future in as_completed(futures): future.result()` loop of
`sort_to`: the first failing result re-raises and aborts the run; otherwise
all results are collected. -/
def drainResults : List (Except String β) → Except String (List β)
  | [] => Except.ok []
  | Except.error e :: _ => Except.error e
  | Except.ok a :: rest =>
      match drainResults rest with
      | Except.error e => Except.error e
      | Except.ok bs => Except.ok (a :: bs)

/-- `seispy.collate.sort.sort_to(src, dest, pattern)`: batches the
discovered targets with `batch_generator(targets, 2000)`, runs
`_copy_targets` on each batch in the pool, and drains the futures with a
bare `future.result()`. -/
def sort_to (targets : List SortTarget) (dest : String) :
    Except String (List (List String)) :=
  match batch_generator targets 2000 with
  | Except.error e => Except.error e
  | Except.ok batches => drainResults (batches.map (_copy_targets dest))

/-- One task submitted by `IRISDownloader.wave`: the `(station, day)` pair
it was created from, and the outcome of its `future.result()` (a `bool`,
or a raised exception's message). -/
structure WaveTask where
  station : String
  day : String
  res : Except String Bool

/-- The draining loop of `IRISDownloader.wave`: each task's
`future.result()` is consumed inside `try/except`; an exception is logged
as `Mission failed: {str(e)}` — note the log line is built from the
exception message alone, the task's station/day identity is not part of it
(the futures list does not map futures back to their tasks) — and the loop
continues; the progress bar is bumped in `finally` either way.  Returns the
number of drained futures and the logged error lines. -/
def wave : List WaveTask → Nat × List String
  | [] => (0, [])
  | t :: ts =>
      let rest := wave ts
      match t.res with
      | Except.ok _ => (rest.1 + 1, rest.2)
      | Except.error e => (rest.1 + 1, ("Mission failed: " ++ e) :: rest.2)

/-- C1 counterexample, two concrete divergences from the claim.
(i) Sort stage: a single file whose stem does not split into 8 fields makes
the worker raise, `future.result()` re-raises it, and the whole run aborts
with the exception instead of completing with a `failed` Outcome.
(ii) Download stage: the diagnostic for a failed task is
`Mission failed: {msg}` — built from the exception message alone — so two
distinct station/day tasks failing with the same message produce
byte-identical diagnostics: the Outcome does not carry the identity of the
offending unit. -/
theorem C1_counterexample_sort_crash_and_download_anonymity :
    (sort_to [⟨"X.sac", ["X", "sac"]⟩] "dest"
      = Except.error "ValueError: not enough values to unpack (expected 8)") ∧
    ((wave [⟨"S1", "2024-01-01", Except.error "timeout"⟩]).2
      = ["Mission failed: timeout"] ∧
     (wave [⟨"S1", "2024-01-01", Except.error "timeout"⟩]).2
      = (wave [⟨"S2", "2024-01-02", Except.error "timeout"⟩]).2) := by
  refine ⟨?_, rfl, rfl⟩
  unfold sort_to
  rw [batch_generator_eq_chunks _ 2000 (by norm_num)]
  rw [chunks_cons]
  norm_num [chunks_nil, _copy_targets, drainResults]

/-- If some target of a batch has a stem without exactly 8 fields,
`_copy_targets` raises. -/
theorem _copy_targets_error_of_bad (dest : String) (l : List SortTarget)
    (h : ∃ t ∈ l, t.stemParts.length ≠ 8) :
    ∃ e, _copy_targets dest l = Except.error e := by
  induction l with
  | nil =>
      obtain ⟨t, ht, _⟩ := h
      exact absurd ht (List.not_mem_nil t)
  | cons t ts ih =>
      by_cases hl : t.stemParts.length = 8
      · obtain ⟨b, hb, hblen⟩ := h
        rcases List.mem_cons.mp hb with rfl | hbts
        · exact absurd hl hblen
        · obtain ⟨e, he⟩ := ih ⟨b, hbts, hblen⟩
          refine ⟨e, ?_⟩
          simp only [_copy_targets, if_pos hl, he]
      · by_cases hlt : t.stemParts.length < 8
        · exact ⟨"ValueError: not enough values to unpack (expected 8)",
            by simp only [_copy_targets, if_neg hl, if_pos hlt]⟩
        · exact ⟨"ValueError: too many values to unpack (expected 8)",
            by simp only [_copy_targets, if_neg hl, if_neg hlt]⟩

/-- If some listed result is an error, the bare draining loop re-raises. -/
theorem drainResults_error (rs : List (Except String β))
    (h : ∃ r ∈ rs, ∃ e, r = Except.error e) :
    ∃ e, drainResults rs = Except.error e := by
  induction rs with
  | nil =>
      obtain ⟨r, hr, _⟩ := h
      exact absurd hr (List.not_mem_nil r)
  | cons r rs ih =>
      cases r with
      | error e => exact ⟨e, rfl⟩
      | ok a =>
          obtain ⟨r2, hr2, e2, he2⟩ := h
          rcases List.mem_cons.mp hr2 with rfl | htail
          · exact absurd he2 (by simp)
          · obtain ⟨e, he⟩ := ih ⟨r2, htail, e2, he2⟩
            exact ⟨e, by simp only [drainResults, he]⟩

/-- C1 (amended): how each stage treats a transform that raises in a
worker.  (i) In the merge stage the worker itself converts the exception
into a diagnostic carrying the day directory's identity and the message,
(ii) every failing day's diagnostic reaches the run's collected error list
(the run completes over all days), (iii) the download stage's drain loop
catches exceptions from `future.result()` and drains every submitted task,
but each failed task's logged diagnostic is exactly
`Mission failed: {msg}` — a function of the exception message only, never
of the offending task's station/day identity — and (iv) in the sort stage
a raising batch aborts the whole run: `sort_to` propagates the exception
instead of converting it. -/
theorem C1_amended_pool_failure_handling :
    (∀ (sortMerge : List Trace → List Trace) (day : DayDir) (rs : Bool) (e : String),
      readAll day.sacs = Except.error e →
      (_merge_targets sortMerge day rs).err
        = some ("Errors in " ++ day.name ++ ":\n  " ++ e)) ∧
    (∀ (sortMerge : List Trace → List Trace) (days : List DayDir) (rs : Bool)
        (day : DayDir) (e : String),
      day ∈ days → (_merge_targets sortMerge day rs).err = some e →
      e ∈ merge_by_day sortMerge days rs) ∧
    (∀ tasks : List WaveTask,
      (wave tasks).1 = tasks.length ∧
      (wave tasks).2 = tasks.filterMap (fun t =>
        match t.res with
        | Except.error e => some ("Mission failed: " ++ e)
        | Except.ok _ => none)) ∧
    (∀ (targets : List SortTarget) (dest : String),
      (∃ t ∈ targets, t.stemParts.length ≠ 8) →
      ∃ e, sort_to targets dest = Except.error e) := by
  refine ⟨?_, ?_, ?_, ?_⟩
  · intro sortMerge day rs e hr
    unfold _merge_targets
    simp [hr]
  · intro sortMerge days rs day e hday herr
    unfold merge_by_day
    exact List.mem_filterMap.mpr
      ⟨_merge_targets sortMerge day rs, List.mem_map.mpr ⟨day, hday, rfl⟩, herr⟩
  · intro tasks
    induction tasks with
    | nil => exact ⟨rfl, rfl⟩
    | cons t ts ih =>
        cases ht : t.res with
        | ok b => simp [wave, ht, List.filterMap_cons, ih.1, ih.2]
        | error e => simp [wave, ht, List.filterMap_cons, ih.1, ih.2]
  · intro targets dest hbad
    unfold sort_to
    rw [batch_generator_eq_chunks _ 2000 (by norm_num)]
    obtain ⟨b, hb, hblen⟩ := hbad
    have hflat : b ∈ (chunks 1999 targets).flatten := by
      rw [chunks_flatten]
      exact hb
    obtain ⟨batch, hbatch, hbmem⟩ := List.mem_flatten.mp hflat
    obtain ⟨e1, he1⟩ := _copy_targets_error_of_bad dest batch ⟨b, hbmem, hblen⟩
    refine drainResults_error _ ⟨Except.error e1, ?_, e1, rfl⟩
    rw [← he1]
    exact List.mem_map.mpr ⟨batch, hbatch, rfl⟩

/-- Witness for the amended C1, at one failing merge day, a two-task
download drain with one raising task, and a one-file sort run. -/
theorem C1_amended_pool_failure_handling_witness :
    (readAll [⟨"bad.SAC", ["bad", "SAC"], Except.error "unable to read"⟩]
        = Except.error "unable to read" ∧
      (_merge_targets id
          ⟨"d1", [⟨"bad.SAC", ["bad", "SAC"], Except.error "unable to read"⟩]⟩
          true).err
        = some ("Errors in " ++ "d1" ++ ":\n  " ++ "unable to read")) ∧
    ((⟨"d1", [⟨"bad.SAC", ["bad", "SAC"], Except.error "unable to read"⟩]⟩ : DayDir)
        ∈ [(⟨"d1", [⟨"bad.SAC", ["bad", "SAC"], Except.error "unable to read"⟩]⟩ : DayDir)] ∧
      (_merge_targets id
          ⟨"d1", [⟨"bad.SAC", ["bad", "SAC"], Except.error "unable to read"⟩]⟩
          true).err = some "Errors in d1:\n  unable to read" ∧
      "Errors in d1:\n  unable to read"
        ∈ merge_by_day id
            [⟨"d1", [⟨"bad.SAC", ["bad", "SAC"], Except.error "unable to read"⟩]⟩] true) ∧
    ((wave [⟨"S1", "2024-01-01", Except.ok true⟩,
            ⟨"S2", "2024-01-02", Except.error "timeout"⟩]).1
        = ([⟨"S1", "2024-01-01", Except.ok true⟩,
            ⟨"S2", "2024-01-02", Except.error "timeout"⟩] : List WaveTask).length ∧
      (wave [⟨"S1", "2024-01-01", Except.ok true⟩,
            ⟨"S2", "2024-01-02", Except.error "timeout"⟩]).2
        = ([⟨"S1", "2024-01-01", Except.ok true⟩,
            ⟨"S2", "2024-01-02", Except.error "timeout"⟩] : List WaveTask).filterMap
            (fun t =>
              match t.res with
              | Except.error e => some ("Mission failed: " ++ e)
              | Except.ok _ => none)) ∧
    ((∃ t ∈ [(⟨"X.sac", ["X", "sac"]⟩ : SortTarget)], t.stemParts.length ≠ 8) ∧
      ∃ e, sort_to [⟨"X.sac", ["X", "sac"]⟩] "dest" = Except.error e) :=
  ⟨⟨rfl, C1_amended_pool_failure_handling.1 id
      ⟨"d1", [⟨"bad.SAC", ["bad", "SAC"], Except.error "unable to read"⟩]⟩ true
      "unable to read" rfl⟩,
    ⟨List.mem_cons_self _ _, rfl,
      C1_amended_pool_failure_handling.2.1 id
        [⟨"d1", [⟨"bad.SAC", ["bad", "SAC"], Except.error "unable to read"⟩]⟩] true
        ⟨"d1", [⟨"bad.SAC", ["bad", "SAC"], Except.error "unable to read"⟩]⟩
        "Errors in d1:\n  unable to read" (List.mem_cons_self _ _) rfl⟩,
    C1_amended_pool_failure_handling.2.2.1
      [⟨"S1", "2024-01-01", Except.ok true⟩,
        ⟨"S2", "2024-01-02", Except.error "timeout"⟩],
    ⟨⟨⟨"X.sac", ["X", "sac"]⟩, List.mem_cons_self _ _, by norm_num⟩,
      C1_amended_pool_failure_handling.2.2.2 [⟨"X.sac", ["X", "sac"]⟩] "dest"
        ⟨⟨"X.sac", ["X", "sac"]⟩, List.mem_cons_self _ _, by norm_num⟩⟩⟩

/-! ### `seispy.collate.format.format_per_event` — header-format stage

Per file: filename and station checks (`continue` on failure), then
`obspy.read` + header updates (any exception here happens *before*
`dest_file` is assigned), then `dest_file = ...` and `tr.write(dest_file)`.
The `except` clause logs, deletes `dest_file` if it exists, and bumps the
failure count.  Because `dest_file` is a plain local surviving across loop
iterations, an exception raised before the current file's assignment sees
the previous iteration's value (or no value at all on the first failure,
in which case the `except` clause itself raises `NameError` and the whole
worker dies).  The modelled filesystem tracks which destination paths exist
as complete outputs and which as half-written ones. -/

/-- One SAC file of an event directory: its name, its stem split at the
dots, the outcome of `obspy.read` + header updates (raises before
`dest_file` is assigned), and the outcome of `tr.write` (raises after;
a failed write leaves a half-written destination behind until the
`except` clause unlinks it). -/
structure EventSacFile where
  name : String
  stemParts : List String
  readErr : Option String
  writeErr : Option String

/-- Destination files on disk: fully written ones and half-written ones. -/
structure FormatFs where
  complete : List String
  halfWritten : List String

/-- The mutable state of the `format_per_event` loop. -/
structure FormatState where
  destFile : Option String
  fs : FormatFs
  success : Nat
  failed : Nat
  logs : List String

/-- `dest_file.unlink()` guarded by `dest_file.exists()`: the path is gone
from the filesystem afterwards (a no-op when absent). -/
def removePath (p : String) (fs : FormatFs) : FormatFs :=
  ⟨fs.complete.filter (fun q => decide (q ≠ p)),
    fs.halfWritten.filter (fun q => decide (q ≠ p))⟩

/-- One iteration of the `for sac_file in sac_files` loop of
`format_per_event`.  `knownStations` abstracts `stations_dict.get`;
`eventDir` and `destEventDir` are `event_dir` and `dest_path / event_dir`.
An `Except.error` result is the `except` clause itself raising `NameError`
on an unassigned `dest_file` (killing the worker); it carries the state at
the crash. -/
def formatStep (knownStations : String → Bool) (eventDir destEventDir : String)
    (s : FormatState) (f : EventSacFile) : Except (FormatState × String) FormatState :=
  if f.stemParts.length < 3 then
    Except.ok { s with logs :=
      ("Invalid filename: " ++ f.name ++ ". Should be `event.station.channel.sac`.")
        :: s.logs }
  else
    let station := f.stemParts[1]!
    let channel := f.stemParts[2]!
    if knownStations station = false then
      Except.ok { s with logs := ("No station info for " ++ f.name) :: s.logs }
    else
      match f.readErr with
      | some e =>
          match s.destFile with
          | none =>
              Except.error
                ({ s with logs := ("failed format: " ++ f.name ++ ": " ++ e) :: s.logs },
                  "NameError: cannot access local variable dest_file")
          | some d =>
              Except.ok ⟨some d, removePath d s.fs, s.success, s.failed + 1,
                ("failed format: " ++ f.name ++ ": " ++ e) :: s.logs⟩
      | none =>
          let destNew := destEventDir ++ "/" ++ eventDir ++ "." ++ station
            ++ "." ++ channel ++ ".sac"
          match f.writeErr with
          | some e =>
              let fsMid : FormatFs := ⟨(removePath destNew s.fs).complete,
                destNew :: (removePath destNew s.fs).halfWritten⟩
              Except.ok ⟨some destNew, removePath destNew fsMid,
                s.success, s.failed + 1,
                ("failed format: " ++ f.name ++ ": " ++ e) :: s.logs⟩
          | none =>
              Except.ok ⟨some destNew,
                ⟨destNew :: (removePath destNew s.fs).complete,
                  (removePath destNew s.fs).halfWritten⟩,
                s.success + 1, s.failed, s.logs⟩

/-- The whole per-event loop, threading the state; stops early (returning
the crash message) when the `except` clause itself raises. -/
def format_per_event (knownStations : String → Bool) (eventDir destEventDir : String) :
    FormatState → List EventSacFile → FormatState × Option String
  | s, [] => (s, none)
  | s, f :: fs =>
      match formatStep knownStations eventDir destEventDir s f with
      | Except.ok s1 => format_per_event knownStations eventDir destEventDir s1 fs
      | Except.error (s1, msg) => (s1, some msg)

theorem removePath_not_mem_complete (p : String) (fs : FormatFs) :
    p ∉ (removePath p fs).complete := by
  unfold removePath
  simp

theorem removePath_not_mem_halfWritten (p : String) (fs : FormatFs) :
    p ∉ (removePath p fs).halfWritten := by
  unfold removePath
  simp

theorem removePath_halfWritten_nil (p : String) (fs : FormatFs)
    (h : fs.halfWritten = []) : (removePath p fs).halfWritten = [] := by
  unfold removePath
  rw [h]
  rfl

/-- A step never leaves a half-written destination behind. -/
theorem formatStep_halfWritten_nil (knownStations : String → Bool)
    (eventDir destEventDir : String) (s : FormatState) (f : EventSacFile)
    (h : s.fs.halfWritten = []) :
    (∀ s1, formatStep knownStations eventDir destEventDir s f = Except.ok s1 →
      s1.fs.halfWritten = []) ∧
    (∀ s1 m, formatStep knownStations eventDir destEventDir s f = Except.error (s1, m) →
      s1.fs.halfWritten = []) := by
  unfold formatStep
  by_cases h3 : f.stemParts.length < 3
  · rw [if_pos h3]
    constructor
    · intro s1 hs1
      cases hs1
      exact h
    · intro s1 m hs1
      cases hs1
  · rw [if_neg h3]
    by_cases hks : knownStations f.stemParts[1]! = false
    · rw [if_pos hks]
      constructor
      · intro s1 hs1
        cases hs1
        exact h
      · intro s1 m hs1
        cases hs1
    · rw [if_neg hks]
      cases hre : f.readErr with
      | some e =>
          cases hdf : s.destFile with
          | none =>
              constructor
              · intro s1 hs1
                cases hs1
              · intro s1 m hs1
                cases hs1
                exact h
          | some d =>
              constructor
              · intro s1 hs1
                cases hs1
                exact removePath_halfWritten_nil d s.fs h
              · intro s1 m hs1
                cases hs1
      | none =>
          cases hwe : f.writeErr with
          | some e =>
              constructor
              · intro s1 hs1
                cases hs1
                simp [removePath, h]
              · intro s1 m hs1
                cases hs1
          | none =>
              constructor
              · intro s1 hs1
                cases hs1
                exact removePath_halfWritten_nil _ s.fs h
              · intro s1 m hs1
                cases hs1

/-- The loop invariant: starting with no half-written destinations, no state
reached by `format_per_event` — including the state at a worker crash — has
any. -/
theorem format_per_event_halfWritten_nil (knownStations : String → Bool)
    (eventDir destEventDir : String) (files : List EventSacFile) :
    ∀ s : FormatState, s.fs.halfWritten = [] →
      (format_per_event knownStations eventDir destEventDir s files).1.fs.halfWritten
        = [] := by
  induction files with
  | nil =>
      intro s h
      exact h
  | cons f fs ih =>
      intro s h
      cases hstep : formatStep knownStations eventDir destEventDir s f with
      | ok s1 =>
          have hnext :=
            (formatStep_halfWritten_nil knownStations eventDir destEventDir s f h).1
              s1 hstep
          simp only [format_per_event, hstep]
          exact ih s1 hnext
      | error p =>
          obtain ⟨s1, m⟩ := p
          have hcrash :=
            (formatStep_halfWritten_nil knownStations eventDir destEventDir s f h).2
              s1 m hstep
          simp only [format_per_event, hstep]
          exact hcrash

/-- C7: in the header-format stage, a file whose write raises after the
destination path was computed has that destination deleted before the loop
moves on (and is counted as exactly one failure); consequently, starting
from a clean tree, after the stage completes — or even if it crashes — no
half-written destination file exists: every destination that exists is a
completely written output. -/
theorem C7_format_no_half_written_destinations :
    (∀ (knownStations : String → Bool) (eventDir destEventDir : String)
        (s : FormatState) (f : EventSacFile) (e : String),
      3 ≤ f.stemParts.length → knownStations (f.stemParts[1]!) = true →
      f.readErr = none → f.writeErr = some e →
      ∃ s1, formatStep knownStations eventDir destEventDir s f = Except.ok s1 ∧
        (destEventDir ++ "/" ++ eventDir ++ "." ++ f.stemParts[1]! ++ "."
          ++ f.stemParts[2]! ++ ".sac") ∉ s1.fs.complete ∧
        (destEventDir ++ "/" ++ eventDir ++ "." ++ f.stemParts[1]! ++ "."
          ++ f.stemParts[2]! ++ ".sac") ∉ s1.fs.halfWritten ∧
        s1.failed = s.failed + 1) ∧
    (∀ (knownStations : String → Bool) (eventDir destEventDir : String)
        (files : List EventSacFile),
      (format_per_event knownStations eventDir destEventDir
        ⟨none, ⟨[], []⟩, 0, 0, []⟩ files).1.fs.halfWritten = []) := by
  constructor
  · intro knownStations eventDir destEventDir s f e h3 hks hre hwe
    simp only [formatStep, if_neg (by omega : ¬f.stemParts.length < 3),
      if_neg (by simp [hks] : ¬knownStations f.stemParts[1]! = false), hre, hwe]
    refine ⟨_, rfl, ?_, ?_, rfl⟩
    · exact removePath_not_mem_complete _ _
    · exact removePath_not_mem_halfWritten _ _
  · intro knownStations eventDir destEventDir files
    exact format_per_event_halfWritten_nil knownStations eventDir destEventDir files
      ⟨none, ⟨[], []⟩, 0, 0, []⟩ rfl

/-- Witness for C7 at one concrete file whose write fails. -/
theorem C7_format_no_half_written_destinations_witness :
    (3 ≤ (["20240101000000", "S1", "BHZ"] : List String).length ∧
      (fun _ : String => true) ((["20240101000000", "S1", "BHZ"] : List String)[1]!) = true ∧
      ∃ s1, formatStep (fun _ => true) "20240101000000" "dest"
          ⟨none, ⟨[], []⟩, 0, 0, []⟩
          ⟨"20240101000000.S1.BHZ.sac", ["20240101000000", "S1", "BHZ"],
            none, some "disk full"⟩
          = Except.ok s1 ∧
        ("dest" ++ "/" ++ "20240101000000" ++ "."
            ++ (["20240101000000", "S1", "BHZ"] : List String)[1]! ++ "."
            ++ (["20240101000000", "S1", "BHZ"] : List String)[2]! ++ ".sac")
          ∉ s1.fs.complete ∧
        ("dest" ++ "/" ++ "20240101000000" ++ "."
            ++ (["20240101000000", "S1", "BHZ"] : List String)[1]! ++ "."
            ++ (["20240101000000", "S1", "BHZ"] : List String)[2]! ++ ".sac")
          ∉ s1.fs.halfWritten ∧
        s1.failed = (⟨none, ⟨[], []⟩, 0, 0, []⟩ : FormatState).failed + 1) ∧
    (format_per_event (fun _ => true) "20240101000000" "dest"
        ⟨none, ⟨[], []⟩, 0, 0, []⟩
        [⟨"20240101000000.S1.BHZ.sac", ["20240101000000", "S1", "BHZ"],
          none, some "disk full"⟩]).1.fs.halfWritten = [] :=
  ⟨⟨by norm_num, rfl,
    C7_format_no_half_written_destinations.1 (fun _ => true) "20240101000000" "dest"
      ⟨none, ⟨[], []⟩, 0, 0, []⟩
      ⟨"20240101000000.S1.BHZ.sac", ["20240101000000", "S1", "BHZ"],
        none, some "disk full"⟩
      "disk full" (by norm_num) rfl rfl rfl⟩,
    C7_format_no_half_written_destinations.2 (fun _ => true) "20240101000000" "dest"
      [⟨"20240101000000.S1.BHZ.sac", ["20240101000000", "S1", "BHZ"],
        none, some "disk full"⟩]⟩
